import Mathlib

/-
Verification development for the extractor-app-api service.

The repository is a Node/Express request-relay service that exists in several
variants.  The development embeds, as executable Lean definitions, the parts
of the source that the verified properties talk about:

* the inbound signature-verification middleware (`verifySignature`), in its
  two shapes: the one in `src/index.js` (no freshness check) and the
  replay-protected one in `src/unnamed/part_002` / `part_003`;
* the recursive schema interpreter `buildField` / `buildObjectSchema`
  (`src/index.js` lines 106-185, duplicated in `part_002`);
* the `/api/extract-data` batch loops of `src/unnamed/part_002` and of the
  legacy variant in `src/unnamed/part_000`;
* the acknowledgment-first dispatch of the `src/index.js` handler;
* the USDA reference lookup `enrichFoodsWithCalories` of
  `src/unnamed/part_001`;
* the progress-event trace of `startAIProcess` in `src/unnamed/part_001`;
* the per-user daily quota middleware `userDailyLimit` of
  `src/unnamed/part_001`.

External effectful collaborators (the OpenAI structured-output capability,
the USDA search endpoint, webhook POST deliveries, redis) are modelled as
explicit oracle parameters that either return a value or fail, mirroring a
JavaScript `await` that either resolves or throws.  HMAC-SHA256 from the
node `crypto` module is modelled as an opaque function parameter
`hmac : String → String → String` (secret, message ↦ hex digest): the
repository never looks inside digests, it only compares and forwards them.
JavaScript numbers are modelled as `Int`/`Nat`/`Rat` as appropriate; header
and property absence is modelled with `Option`.
-/

/-- JavaScript-level failure: an explicitly thrown `Error` (with its
message) or an implicit `TypeError` from reading a property of
`undefined`. -/
inductive JsErr where
  | thrown (msg : String)
  | typeError
deriving DecidableEq, Repr

namespace SigGuard

/-- The inputs the middleware reads from an inbound request: the
`x-signature` and `x-timestamp` headers (absent headers are `none`; the
timestamp header carries the integer the source obtains via `parseInt`) and
the exact raw body string captured by the `express.json` verify hook. -/
structure SigRequest where
  signature : Option String
  timestamp : Option Int
  rawBody : String
deriving DecidableEq, Repr

/-- Outcome of the middleware: an HTTP rejection with its status and error
string, or falling through to `next()`. -/
inductive SigOutcome where
  | reject (httpStatus : Nat) (error : String)
  | accept
deriving DecidableEq, Repr

end SigGuard

namespace IndexJs

open SigGuard

/-- Embedding of `verifySignature` in `src/index.js` lines 57-81 (the same
function appears in the second half of `src/unnamed/part_002`).  It rejects
400 when either header is absent and 403 when the digest over
`timestamp + "." + rawBody` differs from the supplied signature.  This
variant performs no freshness check at all: `now` is never consulted. -/
def verifySignature (hmac : String → String → String) (secret : String)
    (req : SigRequest) : SigOutcome :=
  match req.signature, req.timestamp with
  | some signature, some timestamp =>
    let expected := hmac secret (toString timestamp ++ "." ++ req.rawBody)
    if expected ≠ signature then .reject 403 "Invalid signature"
    else .accept
  | _, _ => .reject 400 "Missing headers"

end IndexJs

namespace Replay

open SigGuard

/-- Embedding of `verifySignature` in `src/unnamed/part_002` lines 25-50
(identically in `part_003`): 400 when a header is absent, 401 when
`|now - timestamp| > 300` seconds, 403 when the digest over
`timestamp + "." + rawBody` differs, otherwise `next()`. -/
def verifySignature (hmac : String → String → String) (secret : String)
    (now : Int) (req : SigRequest) : SigOutcome :=
  match req.signature, req.timestamp with
  | some signature, some timestamp =>
    if 300 < (now - timestamp).natAbs then .reject 401 "Session expired"
    else
      let expected := hmac secret (toString timestamp ++ "." ++ req.rawBody)
      if signature ≠ expected then .reject 403 "Invalid signature"
      else .accept
  | _, _ => .reject 400 "Invalid Session"

end Replay

/-- A concrete stand-in digest function used to instantiate the opaque
`hmac` parameter in closed statements. -/
def demoHmac (secret msg : String) : String :=
  secret ++ "#" ++ msg

/-- C1 counterexample: the `src/index.js` middleware accepts a request whose
timestamp is 1000 seconds behind `now` (skew far beyond the 300-second
window), provided both headers are present and the digest over
`timestamp + "." + rawBody` matches; the claim requires a 401 rejection
here.  The digest function is instantiated with `demoHmac`; the middleware
is parametric in it, so the same acceptance occurs under the real
HMAC-SHA256 for a correctly signed stale request. -/
theorem indexVerifySignature_accepts_stale_timestamp :
    IndexJs.verifySignature demoHmac "k"
      ⟨some (demoHmac "k" ("0" ++ "." ++ "body")), some 0, "body"⟩ =
      SigGuard.SigOutcome.accept ∧
    300 < ((1000 : Int) - 0).natAbs := by
  constructor
  · rfl
  · decide

/-- C1 amended: the replay-protected middleware (`part_002` / `part_003`)
satisfies the claimed contract in full — it accepts iff the supplied
signature equals the digest over `timestamp + "." + rawBody` and
`|now - timestamp| ≤ 300`, rejecting 400 when a header is absent, 401 on
excessive skew, and 403 on digest mismatch — while the `src/index.js`
middleware checks only header presence and the digest: it accepts iff the
signature matches, regardless of skew. -/
theorem replayVerifySignature_characterization
    (hmac : String → String → String) (secret : String) (now : Int)
    (sig : String) (ts : Int) (body : String) :
    (Replay.verifySignature hmac secret now ⟨some sig, some ts, body⟩ =
        .accept ↔
      (now - ts).natAbs ≤ 300 ∧ sig = hmac secret (toString ts ++ "." ++ body)) ∧
    (∀ req : SigGuard.SigRequest,
      req.signature = none ∨ req.timestamp = none →
      Replay.verifySignature hmac secret now req = .reject 400 "Invalid Session") ∧
    (300 < (now - ts).natAbs →
      Replay.verifySignature hmac secret now ⟨some sig, some ts, body⟩ =
        .reject 401 "Session expired") ∧
    ((now - ts).natAbs ≤ 300 → sig ≠ hmac secret (toString ts ++ "." ++ body) →
      Replay.verifySignature hmac secret now ⟨some sig, some ts, body⟩ =
        .reject 403 "Invalid signature") ∧
    (IndexJs.verifySignature hmac secret ⟨some sig, some ts, body⟩ = .accept ↔
      sig = hmac secret (toString ts ++ "." ++ body)) := by
  have hrep : Replay.verifySignature hmac secret now ⟨some sig, some ts, body⟩ =
      if 300 < (now - ts).natAbs then .reject 401 "Session expired"
      else if sig ≠ hmac secret (toString ts ++ "." ++ body) then
        .reject 403 "Invalid signature"
      else .accept := rfl
  have hidx : IndexJs.verifySignature hmac secret ⟨some sig, some ts, body⟩ =
      if hmac secret (toString ts ++ "." ++ body) ≠ sig then
        .reject 403 "Invalid signature"
      else .accept := rfl
  refine ⟨?_, ?_, ?_, ?_, ?_⟩
  · rw [hrep]
    by_cases hskew : 300 < (now - ts).natAbs
    · rw [if_pos hskew]
      constructor
      · intro h; exact absurd h (by simp)
      · intro h; omega
    · rw [if_neg hskew]
      by_cases hsig : sig = hmac secret (toString ts ++ "." ++ body)
      · rw [if_neg (by simp [hsig])]
        exact ⟨fun _ => ⟨by omega, hsig⟩, fun _ => rfl⟩
      · rw [if_pos hsig]
        constructor
        · intro h; exact absurd h (by simp)
        · intro h; exact absurd h.2 hsig
  · rintro ⟨s, t, b⟩ (h | h)
    · simp only at h
      subst h
      rfl
    · simp only at h
      subst h
      cases s <;> rfl
  · intro hskew
    rw [hrep, if_pos hskew]
  · intro hskew hsig
    rw [hrep, if_neg (by omega), if_pos hsig]
  · rw [hidx]
    by_cases hsig : sig = hmac secret (toString ts ++ "." ++ body)
    · rw [if_neg (by simp [hsig])]
      exact ⟨fun _ => hsig, fun _ => rfl⟩
    · rw [if_pos (fun h => hsig h.symm)]
      constructor
      · intro h; exact absurd h (by simp)
      · intro h; exact absurd h hsig

/-- C1 witness: the amended characterization applied at a concrete fresh,
correctly signed request (accepted) and at a concrete stale request
(rejected 401). -/
theorem replayVerifySignature_witness :
    Replay.verifySignature demoHmac "k" 100
      ⟨some (demoHmac "k" ("60" ++ "." ++ "b")), some 60, "b"⟩ =
      SigGuard.SigOutcome.accept ∧
    Replay.verifySignature demoHmac "k" 1000
      ⟨some "whatever", some 0, "b"⟩ =
      SigGuard.SigOutcome.reject 401 "Session expired" :=
  ⟨(replayVerifySignature_characterization demoHmac "k" 100
      (demoHmac "k" ("60" ++ "." ++ "b")) 60 "b").1.mpr ⟨by decide, rfl⟩,
   (replayVerifySignature_characterization demoHmac "k" 1000
      "whatever" 0 "b").2.2.1 (by decide)⟩

namespace SchemaInterp

/-- A declarative schema field node as consumed by `buildField`
(`src/index.js` lines 133-185).  Mirrors the duck-typed JS value: `key`,
`type`, optional `description`, optional `properties` (ordered list of
child nodes) and optional `items` node (of which the source only ever
reads `type`). -/
inductive SField where
  | mk (key : String) (ftype : String) (descr : Option String)
       (properties : Option (List SField)) (items : Option SField)

def SField.key : SField → String
  | .mk k _ _ _ _ => k

def SField.ftype : SField → String
  | .mk _ t _ _ _ => t

/-- A produced structured-output schema node: the JS object accumulated by
`buildField` / `buildObjectSchema` (`type` and `description` always
present, then the optional `properties` / `required` /
`additionalProperties` / `items` keys the branches add).  `descr` is
`none` where the source never sets a `description` key; the root object
and nested `items` objects are built without one. -/
inductive BSchema where
  | mk (btype : String) (descr : Option String)
       (properties : Option (List (String × BSchema)))
       (required : Option (List String))
       (additionalProperties : Option Bool)
       (items : Option BSchema)

mutual

/-- Embedding of `buildField` (`src/index.js` lines 133-185; the identical
function appears in `src/unnamed/part_002`).  `description` is
`field.description || null`, so an absent description stays `none`.  The
object branch recurses through `field.properties`; the array branch throws
when `field.items` is absent, and when `items.type === "object"` it builds
the nested object from `field.properties` (exactly as the source does);
otherwise `items` is the bare `{ type }` leaf.  A declared type other than
`object` and `array` falls through both branches and is emitted verbatim
as a leaf — the source has no unknown-type check. -/
def buildField : SField → Except JsErr BSchema
  | .mk key ftype descr properties items =>
    if ftype = "object" then
      match properties with
      | none => .error .typeError
      | some ps =>
        (buildFields ps).map (fun built =>
          .mk ftype descr (some built) (some (ps.map SField.key)) (some false) none)
    else if ftype = "array" then
      match items with
      | none => .error (.thrown ("Array field " ++ key ++ " must have items."))
      | some it =>
        if it.ftype = "object" then
          match properties with
          | none => .error .typeError
          | some ps =>
            (buildFields ps).map (fun built =>
              .mk ftype descr none none none
                (some (.mk "object" none (some built) (some (ps.map SField.key))
                  (some false) none)))
        else
          .ok (.mk ftype descr none none none
            (some (.mk it.ftype none none none none none)))
    else
      .ok (.mk ftype descr none none none none)

/-- The `fields.forEach` traversal shared by `buildObjectSchema` and the
object branches of `buildField`: builds the `properties` pairs and the
`required` keys in declaration order, propagating the first failure. -/
def buildFields : List SField → Except JsErr (List (String × BSchema))
  | [] => .ok []
  | f :: fs =>
    (buildField f).bind (fun s =>
      (buildFields fs).map (fun rest => (f.key, s) :: rest))

end

/-- Embedding of `buildObjectSchema` (`src/index.js` lines 115-130): the
root object schema over the top-level field list. -/
def buildObjectSchema (fields : List SField) : Except JsErr BSchema :=
  (buildFields fields).map (fun built =>
    .mk "object" none (some built) (some (fields.map SField.key)) (some false) none)

theorem buildField_object (key : String) (descr : Option String)
    (ps : List SField) (items : Option SField) :
    buildField (.mk key "object" descr (some ps) items) =
    (buildFields ps).map (fun built =>
      .mk "object" descr (some built) (some (ps.map SField.key)) (some false) none) := by
  rw [buildField.eq_def]
  simp

theorem buildField_object_noProps (key : String) (descr : Option String)
    (items : Option SField) :
    buildField (.mk key "object" descr none items) = .error .typeError := by
  rw [buildField.eq_def]
  simp

theorem buildField_array_noItems (key : String) (descr : Option String)
    (properties : Option (List SField)) :
    buildField (.mk key "array" descr properties none) =
    .error (.thrown ("Array field " ++ key ++ " must have items.")) := by
  rw [buildField.eq_def]
  simp

theorem buildField_array_objItems (key : String) (descr : Option String)
    (ps : List SField) (it : SField) (hio : it.ftype = "object") :
    buildField (.mk key "array" descr (some ps) (some it)) =
    (buildFields ps).map (fun built =>
      .mk "array" descr none none none
        (some (.mk "object" none (some built) (some (ps.map SField.key))
          (some false) none))) := by
  rw [buildField.eq_def]
  simp [hio]

theorem buildField_array_objItems_noProps (key : String) (descr : Option String)
    (it : SField) (hio : it.ftype = "object") :
    buildField (.mk key "array" descr none (some it)) = .error .typeError := by
  rw [buildField.eq_def]
  simp [hio]

theorem buildField_array_plainItems (key : String) (descr : Option String)
    (properties : Option (List SField)) (it : SField) (hio : it.ftype ≠ "object") :
    buildField (.mk key "array" descr properties (some it)) =
    .ok (.mk "array" descr none none none
      (some (.mk it.ftype none none none none none))) := by
  rw [buildField.eq_def]
  simp [hio]

theorem buildField_leaf (key ftype : String) (descr : Option String)
    (properties : Option (List SField)) (items : Option SField)
    (h1 : ftype ≠ "object") (h2 : ftype ≠ "array") :
    buildField (.mk key ftype descr properties items) =
    .ok (.mk ftype descr none none none none) := by
  rw [buildField.eq_def]
  simp [h1, h2]

theorem buildFields_nil : buildFields [] = .ok [] := rfl

theorem buildFields_cons (f : SField) (fs : List SField) :
    buildFields (f :: fs) =
    (buildField f).bind (fun s =>
      (buildFields fs).map (fun rest => (f.key, s) :: rest)) := by
  rw [buildFields]

mutual

/-- Strictness of a produced schema document: every node of type `object`
carries `properties`, a `required` list equal to the properties keys in
declaration order, and `additionalProperties = false`; recursively at
every depth (through both `properties` and `items`). -/
def BSchema.strictOk : BSchema → Bool
  | .mk btype _ properties required addl items =>
    (if btype = "object" then
      (match properties with
       | some ps => required = some (ps.map Prod.fst)
       | none => False) && (addl = some false)
     else true)
    && (match properties with
        | some ps => strictOkList ps
        | none => true)
    && (match items with
        | some it => it.strictOk
        | none => true)

def strictOkList : List (String × BSchema) → Bool
  | [] => true
  | p :: ps => p.2.strictOk && strictOkList ps

end

mutual

theorem buildField_strict : ∀ (f : SField) (s : BSchema),
    buildField f = .ok s → s.strictOk = true
  | .mk key ftype descr properties items, s => by
    intro h
    by_cases hobj : ftype = "object"
    · subst hobj
      match properties, h with
      | some ps, h =>
        rw [buildField_object] at h
        cases hb : buildFields ps with
        | error e => rw [hb] at h; exact absurd h (by simp [Except.map])
        | ok built =>
          rw [hb] at h
          simp only [Except.map, Except.ok.injEq] at h
          obtain ⟨hstrict, hkeys⟩ := buildFields_strict ps built hb
          subst h
          rw [BSchema.strictOk.eq_def]
          simp [hstrict, hkeys]
      | none, h =>
        rw [buildField_object_noProps] at h
        exact absurd h (by simp)
    · by_cases harr : ftype = "array"
      · subst harr
        match items, h with
        | none, h =>
          rw [buildField_array_noItems] at h
          exact absurd h (by simp)
        | some it, h =>
          by_cases hio : it.ftype = "object"
          · match properties, h with
            | some ps, h =>
              rw [buildField_array_objItems key descr ps it hio] at h
              cases hb : buildFields ps with
              | error e => rw [hb] at h; exact absurd h (by simp [Except.map])
              | ok built =>
                rw [hb] at h
                simp only [Except.map, Except.ok.injEq] at h
                obtain ⟨hstrict, hkeys⟩ := buildFields_strict ps built hb
                subst h
                rw [BSchema.strictOk.eq_def]
                simp only []
                rw [BSchema.strictOk.eq_def]
                simp [hstrict, hkeys]
            | none, h =>
              rw [buildField_array_objItems_noProps key descr it hio] at h
              exact absurd h (by simp)
          · rw [buildField_array_plainItems key descr properties it hio] at h
            simp only [Except.ok.injEq] at h
            subst h
            rw [BSchema.strictOk.eq_def]
            simp only []
            rw [BSchema.strictOk.eq_def]
            simp [hio]
      · rw [buildField_leaf key ftype descr properties items hobj harr] at h
        simp only [Except.ok.injEq] at h
        subst h
        rw [BSchema.strictOk.eq_def]
        simp [hobj]

theorem buildFields_strict : ∀ (fs : List SField) (l : List (String × BSchema)),
    buildFields fs = .ok l →
    strictOkList l = true ∧ l.map Prod.fst = fs.map SField.key
  | [], l => by
    intro h
    rw [buildFields_nil] at h
    simp only [Except.ok.injEq] at h
    subst h
    simp [strictOkList]
  | f :: fs, l => by
    intro h
    rw [buildFields_cons] at h
    cases hf : buildField f with
    | error e => rw [hf] at h; exact absurd h (by simp [Except.bind])
    | ok s =>
      rw [hf] at h
      cases hfs : buildFields fs with
      | error e => rw [hfs] at h; exact absurd h (by simp [Except.bind, Except.map])
      | ok rest =>
        rw [hfs] at h
        simp only [Except.bind, Except.map, Except.ok.injEq] at h
        subst h
        obtain ⟨hstrict, hkeys⟩ := buildFields_strict fs rest hfs
        have hs := buildField_strict f s hf
        rw [strictOkList]
        simp [hs, hstrict, hkeys]

end

end SchemaInterp

namespace SchemaInterp

mutual

/-- Well-formedness of a declarative field node, matching exactly what
`buildField` dereferences: an `object` node must carry `properties` (all
recursively well-formed); an `array` node must carry `items`, and when the
item type is `object` the node must carry `properties` (the list the
source reads in that branch); every other declared type needs nothing. -/
def SField.wf : SField → Bool
  | .mk _ ftype _ properties items =>
    if ftype = "object" then
      match properties with
      | some ps => wfList ps
      | none => false
    else if ftype = "array" then
      match items with
      | some it =>
        if it.ftype = "object" then
          match properties with
          | some ps => wfList ps
          | none => false
        else true
      | none => false
    else true

def wfList : List SField → Bool
  | [] => true
  | f :: fs => f.wf && wfList fs

end

mutual

theorem buildField_wf_ok : ∀ (f : SField), f.wf = true →
    ∃ s, buildField f = .ok s
  | .mk key ftype descr properties items => by
    intro hwf
    rw [SField.wf.eq_def] at hwf
    by_cases hobj : ftype = "object"
    · subst hobj
      simp only [if_true] at hwf
      match properties, hwf with
      | some ps, hwf =>
        obtain ⟨l, hl⟩ := buildFields_wf_ok ps hwf
        exact ⟨_, by rw [buildField_object, hl]; rfl⟩
      | none, hwf => exact absurd hwf (by simp)
    · by_cases harr : ftype = "array"
      · subst harr
        simp only [hobj, if_false, if_true] at hwf
        match items, hwf with
        | some it, hwf =>
          by_cases hio : it.ftype = "object"
          · simp only [hio, if_true] at hwf
            match properties, hwf with
            | some ps, hwf =>
              obtain ⟨l, hl⟩ := buildFields_wf_ok ps hwf
              exact ⟨_, by rw [buildField_array_objItems key descr ps it hio, hl]; rfl⟩
            | none, hwf => exact absurd hwf (by simp)
          · exact ⟨_, buildField_array_plainItems key descr properties it hio⟩
        | none, hwf => exact absurd hwf (by simp)
      · exact ⟨_, buildField_leaf key ftype descr properties items hobj harr⟩

theorem buildFields_wf_ok : ∀ (fs : List SField), wfList fs = true →
    ∃ l, buildFields fs = .ok l
  | [] => fun _ => ⟨[], rfl⟩
  | f :: fs => by
    intro hwf
    rw [wfList] at hwf
    simp only [Bool.and_eq_true] at hwf
    obtain ⟨s, hs⟩ := buildField_wf_ok f hwf.1
    obtain ⟨l, hl⟩ := buildFields_wf_ok fs hwf.2
    exact ⟨_, by rw [buildFields_cons, hs, hl]; rfl⟩

end

end SchemaInterp

/-- C3: for every well-formed declarative field tree, the schema
interpreter succeeds and produces a document in which every `object`
node carries `properties`, a `required` list exactly equal to the list of
its properties keys in declaration order, and
`additionalProperties = false`, recursively at every nesting depth. -/
theorem buildObjectSchema_strict (fields : List SchemaInterp.SField)
    (hwf : SchemaInterp.wfList fields = true) :
    ∃ doc, SchemaInterp.buildObjectSchema fields = .ok doc ∧
      doc.strictOk = true := by
  obtain ⟨l, hl⟩ := SchemaInterp.buildFields_wf_ok fields hwf
  obtain ⟨hstrict, hkeys⟩ := SchemaInterp.buildFields_strict fields l hl
  refine ⟨_, by rw [SchemaInterp.buildObjectSchema, hl]; rfl, ?_⟩
  rw [SchemaInterp.BSchema.strictOk.eq_def]
  simp [hstrict, hkeys]

/-- C3 witness: the interpreter applied to a concrete well-formed tree
with a nested object, an array of objects and primitive leaves yields a
strict document. -/
theorem buildObjectSchema_strict_witness :
    ∃ doc, SchemaInterp.buildObjectSchema
      [.mk "name" "string" (some "the name") none none,
       .mk "addr" "object" none
         (some [.mk "city" "string" none none none,
                .mk "zip" "number" none none none]) none,
       .mk "jobs" "array" none
         (some [.mk "title" "string" none none none])
         (some (.mk "" "object" none none none)),
       .mk "tags" "array" none none (some (.mk "" "string" none none none))] =
      .ok doc ∧ doc.strictOk = true :=
  buildObjectSchema_strict _ (by rfl)

/-- C7 counterexample: a node whose declared type is the unrecognized
`"banana"` does not fail — `buildField` has no unknown-type check and
emits the type verbatim as a leaf schema — whereas the claim requires an
`UnknownFieldType` failure. -/
theorem buildField_unknown_type_succeeds :
    SchemaInterp.buildField (.mk "x" "banana" none none none) =
      .ok (.mk "banana" none none none none none) := rfl

/-- C7 amended: `buildField` fails (throwing the array-items error) exactly
when a node of declared type `array` lacks an `items` definition, and
succeeds on every well-formed node; a node whose declared type is not one
of the recognized kinds is not rejected but passed through as a leaf. -/
theorem buildField_error_behavior (key ftype : String) (descr : Option String)
    (properties : Option (List SchemaInterp.SField))
    (f : SchemaInterp.SField) :
    (SchemaInterp.buildField (.mk key "array" descr properties none) =
      .error (.thrown ("Array field " ++ key ++ " must have items."))) ∧
    (f.wf = true → ∃ s, SchemaInterp.buildField f = .ok s) ∧
    (ftype ≠ "object" → ftype ≠ "array" →
      SchemaInterp.buildField (.mk key ftype descr properties none) =
        .ok (.mk ftype descr none none none none)) :=
  ⟨SchemaInterp.buildField_array_noItems key descr properties,
   SchemaInterp.buildField_wf_ok f,
   fun h1 h2 => SchemaInterp.buildField_leaf key ftype descr properties none h1 h2⟩

/-- C7 witness: the amended behavior at concrete nodes — an array node
without items throws, and a concrete well-formed object node succeeds. -/
theorem buildField_error_behavior_witness :
    (SchemaInterp.buildField (.mk "xs" "array" none none none) =
      .error (.thrown "Array field xs must have items.")) ∧
    (∃ s, SchemaInterp.buildField
      (.mk "o" "object" none (some [.mk "a" "string" none none none]) none) =
      .ok s) :=
  ⟨(buildField_error_behavior "xs" "boolean" none none
      (.mk "o" "object" none (some [.mk "a" "string" none none none]) none)).1,
   (buildField_error_behavior "xs" "boolean" none none
      (.mk "o" "object" none (some [.mk "a" "string" none none none]) none)).2.1
      (by rfl)⟩

namespace Part002

/-- One work item of a `/api/extract-data` batch in
`src/unnamed/part_002` (first service): session id, file id, file type
(`"image"` or text), file extension and content. -/
structure ExtractFile where
  sessionId : String
  fileId : String
  fileType : String
  fileExt : String
  fileContent : String
deriving DecidableEq, Repr

/-- The external structured-extraction capability for one item: the awaited
`openai.chat.completions.parse` call either throws or resolves to
`completion.choices?.[0]?.message?.parsed || null` (`none` = null / no
parsed result).  The image and text branches differ only in the prompt
they send, so one oracle covers both. -/
def Capability := ExtractFile → Except Unit (Option String)

/-- The value `parsedData` holds after the per-item `try`/`catch`: the
parsed result on success, and `null` both when the capability resolves
without a parsed result and when it throws (the `catch` only logs). -/
def parsedDataOf (cap : Capability) (file : ExtractFile) : Option String :=
  match cap file with
  | .ok p => p
  | .error _ => none

/-- The per-item `responseData` record the handler signs and posts to the
callback (`sessionId`, `fileId`, `status`, `response`; the constant
`from: "express"` and wall-clock `timestamp` fields are not modelled). -/
structure ItemResult where
  sessionId : String
  fileId : String
  status : String
  response : Option String
deriving DecidableEq, Repr

def itemRecord (cap : Capability) (file : ExtractFile) : ItemResult :=
  let parsedData := parsedDataOf cap file
  { sessionId := file.sessionId
    fileId := file.fileId
    status := if parsedData.isSome then "completed" else "failed"
    response := parsedData }

/-- One step of the handler loop, tagged with the zero-based submission
index of the item it belongs to: the awaited extraction call for item `i`
begins, or the signed result record of item `i` is posted to the
callback. -/
inductive BatchEv where
  | extractCall (i : Nat)
  | deliver (i : Nat) (r : ItemResult)
deriving DecidableEq, Repr

/-- The `for (const file of files)` loop of the
`app.post("/api/extract-data")` handler in `src/unnamed/part_002` lines
77-149: strictly sequential — each iteration awaits the extraction call,
builds and signs the item record, and awaits its webhook delivery before
the next iteration starts. -/
def extractLoop (cap : Capability) : Nat → List ExtractFile → List BatchEv
  | _, [] => []
  | i, file :: rest =>
    .extractCall i :: .deliver i (itemRecord cap file) :: extractLoop cap (i + 1) rest

/-- The event trace of the whole handler body after the ack. -/
def extractDataHandler (cap : Capability) (files : List ExtractFile) : List BatchEv :=
  extractLoop cap 0 files

/-- The submission index an event belongs to. -/
def BatchEv.idx : BatchEv → Nat
  | .extractCall i => i
  | .deliver i _ => i

/-- The result records delivered to the callback, in delivery order. -/
def deliveredResults (cap : Capability) (files : List ExtractFile) : List ItemResult :=
  (extractDataHandler cap files).filterMap (fun e =>
    match e with
    | .deliver _ r => some r
    | .extractCall _ => none)

/-- Indices of the delivered records, in delivery order. -/
def deliverIdx : BatchEv → Option Nat
  | .deliver i _ => some i
  | .extractCall _ => none

theorem extractLoop_filterMap_deliver (cap : Capability) :
    ∀ (i : Nat) (files : List ExtractFile),
    (extractLoop cap i files).filterMap (fun e =>
      match e with
      | .deliver _ r => some r
      | .extractCall _ => none) = files.map (itemRecord cap)
  | _, [] => rfl
  | i, file :: rest => by
    rw [extractLoop]
    simp [extractLoop_filterMap_deliver cap (i + 1) rest]

theorem deliveredResults_eq_map (cap : Capability) (files : List ExtractFile) :
    deliveredResults cap files = files.map (itemRecord cap) :=
  extractLoop_filterMap_deliver cap 0 files

theorem extractLoop_filterMap_deliverIdx (cap : Capability) :
    ∀ (i : Nat) (files : List ExtractFile),
    (extractLoop cap i files).filterMap deliverIdx = List.range' i files.length
  | _, [] => rfl
  | i, file :: rest => by
    rw [extractLoop]
    simp only [List.length_cons, List.range'_succ]
    simp [deliverIdx, extractLoop_filterMap_deliverIdx cap (i + 1) rest]

theorem extractLoop_idx_ge (cap : Capability) :
    ∀ (i : Nat) (files : List ExtractFile) (n : Nat) (e : BatchEv),
    (extractLoop cap i files).get? n = some e → i ≤ e.idx
  | _, [], n, e => by intro h; rw [extractLoop] at h; simp at h
  | i, file :: rest, 0, e => by
    intro h
    rw [extractLoop] at h
    simp only [List.get?] at h
    cases h
    exact le_refl _
  | i, file :: rest, 1, e => by
    intro h
    rw [extractLoop] at h
    simp only [List.get?] at h
    cases h
    exact le_refl _
  | i, file :: rest, n + 2, e => by
    intro h
    rw [extractLoop] at h
    simp only [List.get?] at h
    exact le_trans (Nat.le_succ i) (extractLoop_idx_ge cap (i + 1) rest n e h)

theorem extractLoop_deliver_before_later_call (cap : Capability) :
    ∀ (i : Nat) (files : List ExtractFile) (p q j k : Nat) (r : ItemResult),
    (extractLoop cap i files).get? p = some (.extractCall j) →
    (extractLoop cap i files).get? q = some (.deliver k r) →
    k < j → q < p
  | _, [], p, q, j, k, r => by
    intro h1 _ _; rw [extractLoop] at h1; simp at h1
  | i, file :: rest, 0, q, j, k, r => by
    intro h1 h2 hkj
    rw [extractLoop] at h1 h2
    simp only [List.get?] at h1
    cases h1
    match q, h2 with
    | 0, h2 => simp only [List.get?] at h2; cases h2
    | 1, h2 =>
      simp only [List.get?] at h2
      cases h2
      omega
    | q + 2, h2 =>
      simp only [List.get?] at h2
      have := extractLoop_idx_ge cap (i + 1) rest q _ h2
      simp [BatchEv.idx] at this
      omega
  | i, file :: rest, 1, q, j, k, r => by
    intro h1 _ _
    rw [extractLoop] at h1
    simp only [List.get?] at h1
    cases h1
  | i, file :: rest, p + 2, q, j, k, r => by
    intro h1 h2 hkj
    rw [extractLoop] at h1 h2
    simp only [List.get?] at h1
    match q, h2 with
    | 0, h2 => simp only [List.get?] at h2; cases h2
    | 1, h2 => omega
    | q + 2, h2 =>
      simp only [List.get?] at h2
      have := extractLoop_deliver_before_later_call cap (i + 1) rest p q j k r h1 h2 hkj
      omega

end Part002

namespace Part000

/-- One work item of the legacy `/api/extract-data` handler in the second
half of `src/unnamed/part_000` (lines 157-223). -/
structure File0 where
  sessionId : String
  fileType : String
  fileContent : String
deriving DecidableEq, Repr

def Capability0 := File0 → Except Unit (Option String)

/-- The per-item record that handler posts: `sessionId`, a `status` that
the source hard-codes to `"completed"`, and the parsed response (the
`from` and `timestamp` fields are not modelled). -/
structure Result0 where
  sessionId : String
  status : String
  response : Option String
deriving DecidableEq, Repr

/-- The legacy batch loop of `src/unnamed/part_000`: inside `getData()` the
image branch has no `try`/`catch`, so a throwing image extraction
propagates out of the handler and no further item is processed or
delivered; the text branch catches and returns `null`; either way the
delivered record carries `status: "completed"` unconditionally. -/
def handler (cap : Capability0) : List File0 → List Result0
  | [] => []
  | file :: rest =>
    if file.fileType = "image" then
      match cap file with
      | .error _ => []
      | .ok p =>
        { sessionId := file.sessionId, status := "completed", response := p } ::
          handler cap rest
    else
      { sessionId := file.sessionId, status := "completed"
        response := match cap file with
                    | .ok p => p
                    | .error _ => none } ::
        handler cap rest

/-- A capability that always throws, and two concrete items. -/
def capFail : Capability0 := fun _ => .error ()

def textItem : File0 := ⟨"s1", "typical", "some text"⟩

def imageItem : File0 := ⟨"s2", "image", "base64"⟩

end Part000

/-- C2 counterexample: in the legacy `part_000` handler (one of the two
cited batch loops), a single text item whose extraction call throws is
delivered with `status = "completed"` and a null response — the claim
requires `status = "failed"` — and a batch of two items whose first item
is an image with a throwing extraction delivers zero records instead of
two, because the uncaught throw aborts the loop. -/
theorem part000_handler_violates_failure_isolation :
    Part000.handler Part000.capFail [Part000.textItem] =
      [⟨"s1", "completed", none⟩] ∧
    Part000.handler Part000.capFail [Part000.imageItem, Part000.textItem] = [] := by
  constructor <;> rfl

/-- C2 amended: for the `part_002` `/api/extract-data` handler the claim
holds as stated: for every batch of N items and every capability
behavior, exactly N per-item records are delivered; an item whose
extraction throws or yields no parsed result is recorded with
`status = "failed"` and a null response, every other item is recorded
with `status = "completed"` and its extracted data, and every record
depends only on its own item (one item failing never prevents the
processing or delivery of the others).  The legacy `part_000` variant
does not satisfy this (see the counterexample). -/
theorem part002_handler_failure_isolation (cap : Part002.Capability)
    (files : List Part002.ExtractFile) (k : Nat) (hk : k < files.length) :
    (Part002.deliveredResults cap files).length = files.length ∧
    (Part002.parsedDataOf cap (files.get ⟨k, hk⟩) = none →
      (Part002.deliveredResults cap files).get? k =
        some ⟨(files.get ⟨k, hk⟩).sessionId, (files.get ⟨k, hk⟩).fileId,
          "failed", none⟩) ∧
    (∀ d, Part002.parsedDataOf cap (files.get ⟨k, hk⟩) = some d →
      (Part002.deliveredResults cap files).get? k =
        some ⟨(files.get ⟨k, hk⟩).sessionId, (files.get ⟨k, hk⟩).fileId,
          "completed", some d⟩) ∧
    (∀ j (hj : j < files.length),
      (Part002.deliveredResults cap files).get? j =
        some (Part002.itemRecord cap (files.get ⟨j, hj⟩))) := by
  have hmap := Part002.deliveredResults_eq_map cap files
  have hget : ∀ j (hj : j < files.length),
      (Part002.deliveredResults cap files).get? j =
        some (Part002.itemRecord cap (files.get ⟨j, hj⟩)) := by
    intro j hj
    rw [hmap, List.get?_map, List.get?_eq_get hj]
    rfl
  refine ⟨by rw [hmap, List.length_map], ?_, ?_, hget⟩
  · intro hnone
    rw [hget k hk]
    unfold Part002.itemRecord
    rw [hnone]
    rfl
  · intro d hsome
    rw [hget k hk]
    unfold Part002.itemRecord
    rw [hsome]
    rfl

/-- C2 witness: a concrete three-item batch in which the middle item
throws: three records are delivered, the middle one failed with null
response, the outer two completed with their data. -/
theorem part002_handler_failure_isolation_witness :
    (Part002.deliveredResults
        (fun f => if f.fileId = "f2" then .error () else .ok (some ("data-" ++ f.fileId)))
        [⟨"s", "f1", "typical", "txt", "a"⟩,
         ⟨"s", "f2", "typical", "txt", "b"⟩,
         ⟨"s", "f3", "image", "png", "c"⟩]).length = 3 ∧
    (Part002.deliveredResults
        (fun f => if f.fileId = "f2" then .error () else .ok (some ("data-" ++ f.fileId)))
        [⟨"s", "f1", "typical", "txt", "a"⟩,
         ⟨"s", "f2", "typical", "txt", "b"⟩,
         ⟨"s", "f3", "image", "png", "c"⟩]).get? 1 =
      some ⟨"s", "f2", "failed", none⟩ ∧
    (Part002.deliveredResults
        (fun f => if f.fileId = "f2" then .error () else .ok (some ("data-" ++ f.fileId)))
        [⟨"s", "f1", "typical", "txt", "a"⟩,
         ⟨"s", "f2", "typical", "txt", "b"⟩,
         ⟨"s", "f3", "image", "png", "c"⟩]).get? 2 =
      some ⟨"s", "f3", "completed", some "data-f3"⟩ :=
  have h := part002_handler_failure_isolation
    (fun f => if f.fileId = "f2" then .error () else .ok (some ("data-" ++ f.fileId)))
    [⟨"s", "f1", "typical", "txt", "a"⟩,
     ⟨"s", "f2", "typical", "txt", "b"⟩,
     ⟨"s", "f3", "image", "png", "c"⟩] 1 (by decide)
  ⟨h.1, h.2.1 (by rfl), by
    rw [h.2.2.2 2 (by decide)]
    rfl⟩

/-- C5: the `part_002` batch handler processes items strictly
sequentially: the delivered per-item records arrive at the callback
exactly once per item and in submission order (delivery indices are
`0, 1, …, N-1` in order), and the extraction call of any later item
occurs strictly after the delivery of every earlier item, for every batch
and every capability behavior. -/
theorem batch_sequential_ordering (cap : Part002.Capability)
    (files : List Part002.ExtractFile) :
    (Part002.extractDataHandler cap files).filterMap Part002.deliverIdx =
      List.range files.length ∧
    (∀ p q j k r,
      (Part002.extractDataHandler cap files).get? p =
        some (.extractCall j) →
      (Part002.extractDataHandler cap files).get? q = some (.deliver k r) →
      k < j → q < p) := by
  constructor
  · rw [Part002.extractDataHandler,
      Part002.extractLoop_filterMap_deliverIdx cap 0 files, List.range_eq_range']
  · intro p q j k r h1 h2 hkj
    exact Part002.extractLoop_deliver_before_later_call cap 0 files p q j k r h1 h2 hkj

/-- C5 witness: in a concrete two-item batch the second extraction call
(at trace position 2) occurs after the first delivery (at trace position
1), and the delivery order is `[0, 1]`. -/
theorem batch_sequential_ordering_witness :
    (Part002.extractDataHandler (fun _ => .ok (some "d"))
      [⟨"s", "f1", "typical", "txt", "a"⟩, ⟨"s", "f2", "typical", "txt", "b"⟩]).filterMap
      Part002.deliverIdx = List.range 2 ∧
    (1 : Nat) < 2 :=
  have h := batch_sequential_ordering (fun _ => .ok (some "d"))
    [⟨"s", "f1", "typical", "txt", "a"⟩, ⟨"s", "f2", "typical", "txt", "b"⟩]
  ⟨h.1, h.2 2 1 1 0 (Part002.itemRecord (fun _ => .ok (some "d"))
      ⟨"s", "f1", "typical", "txt", "a"⟩) (by rfl) (by rfl) (by decide)⟩

namespace Dispatch

/-- The acknowledgment body built by the `/api/extract-data` handler in
`src/index.js` lines 479-483: `{status, note, timestamp}` with
`timestamp = Date.now()` (epoch milliseconds). -/
structure AckBody where
  status : String
  note : String
  timestamp : Nat
deriving DecidableEq, Repr

def ackNote : String := "Processing, result will be sent to webhook"

/-- `JSON.stringify(ackData)` for the acknowledgment object: key order is
the object-literal order status, note, timestamp. -/
def serializeAck (ts : Nat) : String :=
  "\x7b\"status\":\"accepted\",\"note\":\"" ++ ackNote ++ "\",\"timestamp\":"
    ++ toString ts ++ "\x7d"

/-- One step of the dispatcher: the synchronous HTTP response (status,
`X-Signature` response header, body), or a unit of the detached per-item
extraction work of the subsequent loop (the awaited `analyzeFile` /
extraction call for item `i`, or the webhook delivery of item `i`). -/
inductive DispatchEv where
  | respond (httpStatus : Nat) (xSignature : String) (body : AckBody)
  | extractWork (i : Nat)
  | deliverResult (i : Nat)
deriving DecidableEq, Repr

/-- The event trace of the `src/index.js` `/api/extract-data` handler for
a verified request with `n` work items: it builds `ackData`, signs
`JSON.stringify(ackData)` with the shared secret, sets the `X-Signature`
header and sends the 200 response — all before the `for` loop over
`extraction_request` performs any extraction or delivery. -/
def dispatchTrace (hmac : String → String → String) (secret : String)
    (ts : Nat) (n : Nat) : List DispatchEv :=
  .respond 200 (hmac secret (serializeAck ts)) ⟨"accepted", ackNote, ts⟩ ::
    (List.range n).flatMap (fun i => [.extractWork i, .deliverResult i])

end Dispatch

/-- C6: for every verified inbound job request (any digest function,
secret, acknowledgment timestamp and number of work items), the
dispatcher trace begins with the HTTP 200 response whose body is exactly
`{status:"accepted", note, timestamp}` and whose `X-Signature` header is
the digest of the serialized ack body under the shared secret; every unit
of extraction work occurs at a strictly later position in the trace. -/
theorem dispatch_ack_first (hmac : String → String → String) (secret : String)
    (ts : Nat) (n : Nat) :
    (Dispatch.dispatchTrace hmac secret ts n).get? 0 =
      some (.respond 200 (hmac secret (Dispatch.serializeAck ts))
        ⟨"accepted", Dispatch.ackNote, ts⟩) ∧
    (∀ p i, (Dispatch.dispatchTrace hmac secret ts n).get? p =
        some (.extractWork i) → 0 < p) ∧
    (∀ p i, (Dispatch.dispatchTrace hmac secret ts n).get? p =
        some (.deliverResult i) → 0 < p) := by
  refine ⟨rfl, ?_, ?_⟩ <;>
    · intro p i h
      cases p with
      | zero => simp [Dispatch.dispatchTrace] at h
      | succ p => exact Nat.succ_pos p

/-- C6 witness: the concrete trace for a two-item request under the demo
digest starts with the signed 200 ack, and the first extraction-work
event sits at a positive position. -/
theorem dispatch_ack_first_witness :
    (Dispatch.dispatchTrace demoHmac "k" 1700000000000 2).get? 0 =
      some (.respond 200 (demoHmac "k" (Dispatch.serializeAck 1700000000000))
        ⟨"accepted", Dispatch.ackNote, 1700000000000⟩) ∧
    (0 : Nat) < 1 :=
  have h := dispatch_ack_first demoHmac "k" 1700000000000 2
  ⟨h.1, h.2.1 1 0 (by rfl)⟩

namespace FoodEnrich

/-- A food item detected by the vision stage; the reference lookup only
reads its `foodName`. -/
structure DetectedFood where
  foodName : String
deriving DecidableEq, Repr

/-- One entry of `usdaFood.foodNutrients` as the source reads it:
`nutrientName` (checked for truthiness), `value` (kept only when it is a
number) and the optional `unitName`. -/
structure FoodNutrient where
  nutrientName : Option String
  value : Option Rat
  unitName : Option String
deriving DecidableEq, Repr

/-- The first matching USDA record: the fields the source copies, plus the
nutrient array when present (`none` models a missing or non-array
`foodNutrients`, which the `Array.isArray` guard tolerates). -/
structure UsdaFood where
  servingSizeUnit : Option String
  servingSize : Option Rat
  householdServingFullText : Option String
  foodNutrients : Option (List FoodNutrient)
deriving DecidableEq, Repr

/-- A filtered, mapped nutrient of the enriched record. -/
structure Nutrient where
  nutrientName : String
  value : Rat
  unitName : Option String
deriving DecidableEq, Repr

/-- The enriched per-food record pushed onto `realFoodData`. -/
structure RealFood where
  foodName : String
  servingSizeUnit : Option String
  servingSize : Option Rat
  householdServingFullText : Option String
  nutrients : List Nutrient
deriving DecidableEq, Repr

/-- JavaScript `x || null` on an optional string: empty strings are falsy
and collapse to null. -/
def truthyStr : Option String → Option String
  | some s => if s = "" then none else some s
  | none => none

/-- The `filter`/`map` over `usdaFood.foodNutrients`: keep entries with a
truthy `nutrientName` and a numeric `value`, carrying `unitName || null`
along. -/
def mapNutrients (ns : List FoodNutrient) : List Nutrient :=
  ns.filterMap (fun n =>
    match truthyStr n.nutrientName, n.value with
    | some nm, some v => some ⟨nm, v, truthyStr n.unitName⟩
    | _, _ => none)

/-- Embedding of `enrichFoodsWithCalories` (`src/unnamed/part_001` lines
230-270; the same function appears in `part_002`).  The USDA search
endpoint is the oracle `search : foodName ↦ data.foods`.  For each
detected food the source reads `data.foods[0]` and then dereferences it:
when the search returns no match, `usdaFood` is `undefined` and
`usdaFood.foodNutrients` throws a `TypeError`, which propagates out of
the whole loop — no per-food record survives.  When a match exists, a
missing or non-array `foodNutrients` yields an empty nutrient list.  (The
source finally wraps the list in `JSON.stringify`; the serialization is
not modelled.) -/
def enrichFoodsWithCalories (search : String → List UsdaFood) :
    List DetectedFood → Except JsErr (List RealFood)
  | [] => .ok []
  | food :: rest =>
    match (search food.foodName).head? with
    | none => .error .typeError
    | some usdaFood =>
      let nutrients :=
        match usdaFood.foodNutrients with
        | some ns => mapNutrients ns
        | none => []
      match enrichFoodsWithCalories search rest with
      | .error e => .error e
      | .ok others =>
        .ok ({ foodName := food.foodName
               servingSizeUnit := usdaFood.servingSizeUnit
               servingSize := usdaFood.servingSize
               householdServingFullText := usdaFood.householdServingFullText
               nutrients := nutrients } :: others)

end FoodEnrich

/-- C8: evaluation of the reference lookup at the failing input.  A
detected food whose reference search returns no matching record does not
yield a record with empty measurements: reading `foodNutrients` of the
`undefined` first match throws a `TypeError`, aborting the whole batch
(first conjunct) — even when every other subject in the batch has a
match (third conjunct).  The empty-measurements behavior the claim
describes only occurs when a record is found but carries no nutrient
array (second conjunct). -/
theorem enrichFoods_no_match_throws :
    FoodEnrich.enrichFoodsWithCalories (fun _ => []) [⟨"papaya"⟩] =
      .error .typeError ∧
    FoodEnrich.enrichFoodsWithCalories
      (fun _ => [⟨some "g", some 100, some "1 cup", none⟩]) [⟨"papaya"⟩] =
      .ok [⟨"papaya", some "g", some 100, some "1 cup", []⟩] ∧
    FoodEnrich.enrichFoodsWithCalories
      (fun name => if name = "rice" then [⟨some "g", some 100, none,
        some [⟨some "Energy", some 130, some "kcal"⟩]⟩] else [])
      [⟨"rice"⟩, ⟨"unknown-berry"⟩] = .error .typeError := by
  refine ⟨rfl, rfl, rfl⟩

namespace FoodPipeline

/-- A socket event the food-analysis job emits to its job-id room: an
`ai-progress` event (from `emitProgress`, `src/unnamed/part_001` lines
100-108) with its `step` and `percent` (null for none), the `ai-complete`
event carrying the final meal payload, or the `ai-error` event emitted by
the `catch` block. -/
inductive PEv where
  | progress (step : String) (percent : Option Nat)
  | complete
  | error
deriving DecidableEq, Repr

/-- Outcomes of the awaited external calls inside `startAIProcess`
(`src/unnamed/part_001` lines 301-554), each of which either resolves or
throws: the vision parse call (resolving to the `isValidFood` flag of the
parsed estimation), the rejection webhook POST, the USDA enrichment, the
nutrient-scaling parse call, and the final webhook POST. -/
structure PipelineOracle where
  vision : Except Unit Bool
  rejectionPost : Except Unit Unit
  enrichment : Except Unit Unit
  nutrients : Except Unit Unit
  finalPost : Except Unit Unit

/-- The sequence of socket events `startAIProcess` emits for one job, by
the source order: `started` (5) and `analyzing_image` (20); then either
the vision call throws (the `catch` emits `ai-error`), or an invalid food
emits `rejected` (100) followed by the rejection POST (whose failure also
lands in the `catch`), or the valid path emits `enriching_foods` (50),
`estimating_nutrients` (75), `completed` (100) and `ai-complete`,
followed by the final POST — any throw along the way reaching the same
`catch` and its `ai-error`. -/
def startAIProcessTrace (o : PipelineOracle) : List PEv :=
  [.progress "started" (some 5), .progress "analyzing_image" (some 20)] ++
  match o.vision with
  | .error _ => [.error]
  | .ok isValidFood =>
    if !isValidFood then
      [.progress "rejected" (some 100)] ++
      (match o.rejectionPost with
       | .ok _ => []
       | .error _ => [.error])
    else
      [.progress "enriching_foods" (some 50)] ++
      match o.enrichment with
      | .error _ => [.error]
      | .ok _ =>
        [.progress "estimating_nutrients" (some 75)] ++
        match o.nutrients with
        | .error _ => [.error]
        | .ok _ =>
          [.progress "completed" (some 100), .complete] ++
          (match o.finalPost with
           | .ok _ => []
           | .error _ => [.error])

/-- An event that carries a terminal step in the sense of the spec: a
progress event with step `completed` or `rejected`, or an `ai-error`
event.  (`ai-complete` is the payload-bearing companion of the
`completed` progress event, not itself a step-bearing event.) -/
def isTerminal : PEv → Bool
  | .progress s _ => s = "completed" || s = "rejected"
  | .error => true
  | .complete => false

def terminalCount (tr : List PEv) : Nat := (tr.filter isTerminal).length

/-- The percent values of the step events of a trace, in emission order
(events with a null percent contribute nothing). -/
def percents (tr : List PEv) : List Nat :=
  tr.filterMap (fun e =>
    match e with
    | .progress _ p => p
    | _ => none)

/-- A list of percent values is non-decreasing. -/
def nondecreasing : List Nat → Bool
  | [] => true
  | [_] => true
  | a :: b :: rest => (a ≤ b : Bool) && nondecreasing (b :: rest)

end FoodPipeline

/-- C9 counterexample: on the invalid-food path with a failing rejection
webhook POST, the job emits two terminal events — the `rejected` progress
event (percent 100) and then, because the awaited POST throws into the
`catch` block, an `ai-error` event — so "exactly one terminal event" is
violated on this execution path. -/
theorem pipeline_two_terminal_events :
    FoodPipeline.startAIProcessTrace
      ⟨.ok false, .error (), .ok (), .ok (), .ok ()⟩ =
      [.progress "started" (some 5), .progress "analyzing_image" (some 20),
       .progress "rejected" (some 100), .error] ∧
    FoodPipeline.terminalCount (FoodPipeline.startAIProcessTrace
      ⟨.ok false, .error (), .ok (), .ok (), .ok ()⟩) = 2 := by
  constructor <;> rfl

/-- C9 amended: for every behavior of the five awaited calls, the percent
values of the emitted progress events are non-decreasing and at least one
terminal event is emitted; and on every path on which no webhook delivery
fails after a terminal progress event — that is, whenever the rejection
POST and the final POST succeed — exactly one terminal event is emitted.
When such a POST throws, the terminal progress event is followed by an
additional `ai-error` event. -/
theorem pipeline_progress_invariants (o : FoodPipeline.PipelineOracle) :
    FoodPipeline.nondecreasing
      (FoodPipeline.percents (FoodPipeline.startAIProcessTrace o)) = true ∧
    1 ≤ FoodPipeline.terminalCount (FoodPipeline.startAIProcessTrace o) ∧
    (o.rejectionPost = .ok () ∧ o.finalPost = .ok () →
      FoodPipeline.terminalCount (FoodPipeline.startAIProcessTrace o) = 1) := by
  obtain ⟨v, rp, en, nu, fp⟩ := o
  rcases rp with ⟨u1⟩ | ⟨u1⟩ <;> cases u1 <;>
  rcases en with ⟨u2⟩ | ⟨u2⟩ <;> cases u2 <;>
  rcases nu with ⟨u3⟩ | ⟨u3⟩ <;> cases u3 <;>
  rcases fp with ⟨u4⟩ | ⟨u4⟩ <;> cases u4 <;>
  rcases v with ⟨u5⟩ | b <;> (try cases u5) <;> (try cases b) <;>
  first
    | exact ⟨by decide, by decide, fun _ => by decide⟩
    | exact ⟨by decide, by decide, fun h => Except.noConfusion h.1⟩
    | exact ⟨by decide, by decide, fun h => Except.noConfusion h.2⟩

/-- C9 witness: on the all-successful path the invariants apply and give
exactly one terminal event. -/
theorem pipeline_progress_invariants_witness :
    FoodPipeline.nondecreasing (FoodPipeline.percents (FoodPipeline.startAIProcessTrace
      ⟨.ok true, .ok (), .ok (), .ok (), .ok ()⟩)) = true ∧
    FoodPipeline.terminalCount (FoodPipeline.startAIProcessTrace
      ⟨.ok true, .ok (), .ok (), .ok (), .ok ()⟩) = 1 :=
  have h := pipeline_progress_invariants ⟨.ok true, .ok (), .ok (), .ok (), .ok ()⟩
  ⟨h.1, h.2.2 ⟨rfl, rfl⟩⟩

namespace Quota

/-- The slice of redis state the middleware touches: the counter stored
under `rate_limit:{userId}:{today}` for the requesting user and current
day, and whether a TTL is attached to that key. -/
structure QuotaState where
  count : Nat
  expiryIsSet : Bool
deriving DecidableEq, Repr

inductive QuotaOutcome where
  | proceed
  | reject429
deriving DecidableEq, Repr

/-- Embedding of `userDailyLimit` (`src/unnamed/part_001` lines 161-195)
for an authenticated user: `redis.incr` increments the per-user per-day
counter first; when the incremented count is exactly 1 a 24-hour expiry
is attached; only then is the count compared against the configured
limit, responding 429 when `count > USER_DAILY_LIMIT` and calling
`next()` otherwise.  Returns the new state, the outcome, and whether this
call attached the expiry. -/
def userDailyLimit (limit : Nat) (st : QuotaState) :
    QuotaState × QuotaOutcome × Bool :=
  let count := st.count + 1
  let attached := count = 1
  let st' : QuotaState :=
    { count := count
      expiryIsSet := if count = 1 then true else st.expiryIsSet }
  if limit < count then (st', .reject429, attached)
  else (st', .proceed, attached)

end Quota

/-- C10: for every request through the daily-quota middleware, the counter
is incremented first (in both outcomes the stored count grows by one, so
a rejected over-limit attempt still consumes one unit of quota), the
request proceeds iff the incremented count is at most the configured
limit (otherwise the outcome is the 429 rejection), and the 24-hour
expiry is attached exactly when the increment yields count 1. -/
theorem userDailyLimit_increment_then_check (limit : Nat) (st : Quota.QuotaState) :
    (Quota.userDailyLimit limit st).1.count = st.count + 1 ∧
    ((Quota.userDailyLimit limit st).2.1 = .proceed ↔ st.count + 1 ≤ limit) ∧
    ((Quota.userDailyLimit limit st).2.1 = .reject429 ↔ limit < st.count + 1) ∧
    ((Quota.userDailyLimit limit st).2.2 = true ↔ st.count + 1 = 1) ∧
    ((Quota.userDailyLimit limit st).2.1 = .reject429 →
      (Quota.userDailyLimit limit st).1.count = st.count + 1) := by
  unfold Quota.userDailyLimit
  by_cases hlim : limit < st.count + 1
  · rw [if_pos hlim]
    refine ⟨rfl, ?_, ?_, ?_, fun _ => rfl⟩
    · constructor
      · intro h; exact absurd h (by simp)
      · intro h; omega
    · exact ⟨fun _ => hlim, fun _ => rfl⟩
    · simp
  · rw [if_neg hlim]
    refine ⟨rfl, ?_, ?_, ?_, fun h => absurd h (by simp)⟩
    · exact ⟨fun _ => by omega, fun _ => rfl⟩
    · constructor
      · intro h; exact absurd h (by simp)
      · intro h; exact absurd h hlim
    · simp

/-- C10 witness: with a daily limit of 2, a user at count 2 is rejected
with 429 and the counter still advances to 3, while a fresh user (count
0) proceeds and has the expiry attached. -/
theorem userDailyLimit_increment_then_check_witness :
    (Quota.userDailyLimit 2 ⟨2, true⟩).2.1 = .reject429 ∧
    (Quota.userDailyLimit 2 ⟨2, true⟩).1.count = 3 ∧
    (Quota.userDailyLimit 2 ⟨0, false⟩).2.1 = .proceed ∧
    (Quota.userDailyLimit 2 ⟨0, false⟩).2.2 = true :=
  have h2 := userDailyLimit_increment_then_check 2 ⟨2, true⟩
  have h0 := userDailyLimit_increment_then_check 2 ⟨0, false⟩
  ⟨h2.2.2.1.mpr (by decide), h2.1, h0.2.1.mpr (by decide), h0.2.2.2.1.mpr rfl⟩
